import Mathlib

/-!
# Verification of the freight multi-provider route-planning core

A shallow embedding of the repository's data model (`data_model.py`), the
bidirectional A* engine (`engine.py`), and the unidirectional A* engine
(`engine_new.py`), together with theorems settling the specification claims.

Modelling conventions:
* Python `float` values are modelled as exact rationals `ℚ`; the value
  `float('inf')` used for thresholds and for fallback-path totals is modelled
  by the extended type `QInf` below.
* Python `dict`s are modelled as association lists with `dictGet?`/`dictSet`
  mirroring `d[k]` / `d[k] = v` (replace in place, append new keys at the end).
* The `while open_set:` search loops are modelled with an explicit fuel
  parameter bounding the number of iterations; the universally quantified
  theorems below hold for every fuel value.
* The geographic heuristic `_heuristic` computes `sqrt(dx^2 + dy^2) * 0.01` in
  floating point; the square root is irrational, so the postcode-to-postcode
  heuristic is abstracted as a function parameter `hfun`.  It only influences
  search order; every theorem below holds for all `hfun`, and the concrete
  instances place all postcodes in one state, where the source heuristic is
  exactly `0.0`.
-/

/-! ## Association-list dictionaries (Python `dict`) -/

/-- `d[k]` lookup returning `none` when the key is absent. -/
def dictGet? {α β : Type} [DecidableEq α] : List (α × β) → α → Option β
  | [], _ => none
  | (k, v) :: rest, key => if k = key then some v else dictGet? rest key

/-- `d[k] = v`: replace the binding in place if the key exists, else append. -/
def dictSet {α β : Type} [DecidableEq α] : List (α × β) → α → β → List (α × β)
  | [], key, val => [(key, val)]
  | (k, v) :: rest, key, val =>
    if k = key then (key, val) :: rest else (k, v) :: dictSet rest key val

/-- `adj.setdefault(k, []).append(v)`: append `v` to the list stored at `k`. -/
def appendAt {α : Type} [DecidableEq α] {β : Type}
    (d : List (α × List β)) (k : α) (v : β) : List (α × List β) :=
  match dictGet? d k with
  | none => dictSet d k [v]
  | some l => dictSet d k (l ++ [v])

theorem dictGet_dictSet {α β : Type} [DecidableEq α]
    (d : List (α × β)) (k : α) (v : β) (c : α) :
    dictGet? (dictSet d k v) c = if k = c then some v else dictGet? d c := by
  induction d with
  | nil => simp [dictSet, dictGet?]
  | cons hd tl ih =>
    by_cases h1 : hd.1 = k
    · simp only [dictSet, h1, if_pos rfl]
      by_cases h2 : k = c <;> simp [dictGet?, h1, h2]
    · simp only [dictSet, if_neg h1]
      by_cases h2 : hd.1 = c
      · have : ¬ k = c := fun h => h1 (h2.trans h.symm)
        simp [dictGet?, h2, this]
      · simp [dictGet?, h2, ih]

/-- Every value present after a `dictSet` is the new value or an old one. -/
theorem mem_dictSet {α β : Type} [DecidableEq α]
    {d : List (α × β)} {k : α} {v : β} {e : α × β}
    (h : e ∈ dictSet d k v) : e.2 = v ∨ e ∈ d := by
  induction d with
  | nil => simp only [dictSet, List.mem_singleton] at h; simp [h]
  | cons hd tl ih =>
    simp only [dictSet] at h
    by_cases h1 : hd.1 = k
    · simp only [if_pos h1, List.mem_cons] at h
      rcases h with h | h
      · simp [h]
      · exact Or.inr (List.mem_cons_of_mem _ h)
    · simp only [if_neg h1, List.mem_cons] at h
      rcases h with h | h
      · exact Or.inr (h ▸ List.mem_cons_self _ _)
      · rcases ih h with h' | h'
        · exact Or.inl h'
        · exact Or.inr (List.mem_cons_of_mem _ h')

/-! ## Extended rationals: `float` values that may be `inf` -/

/-- A rational or `float('inf')`. -/
inductive QInf where
  | val (q : ℚ)
  | inf
deriving DecidableEq, Repr

namespace QInf

/-- Boolean `a <= b` on extended rationals. -/
def ble : QInf → QInf → Bool
  | _, inf => true
  | inf, val _ => false
  | val a, val b => decide (a ≤ b)

/-- Boolean `a < b` on extended rationals. -/
def blt (a b : QInf) : Bool := !(ble b a)

theorem ble_trans {a b c : QInf} (h1 : ble a b = true) (h2 : ble b c = true) :
    ble a c = true := by
  cases a <;> cases b <;> cases c <;> simp_all [ble] <;> exact le_trans h1 h2

theorem ble_total (a b : QInf) : ble a b || ble b a := by
  cases a <;> cases b <;> simp [ble] <;> exact le_total _ _

theorem blt_iff_not_ble {a b : QInf} : blt a b = true ↔ ¬ ble b a = true := by
  simp [blt]

end QInf

/-! ## Data model (`data_model.py`) -/

/-- Global postcode node (universal across all providers). -/
structure Postcode where
  code : String
  suburb : String
  state : String
  region : Option String := none
deriving DecidableEq, Repr

/-- Provider-specific zone node. -/
structure ProviderZone where
  providerId : String
  zoneCode : String
  postcodes : List String
  state : String
  category : String := ""
deriving DecidableEq, Repr

/-- Zone-to-zone edge within a single provider (from `fp_pricing_rules`). -/
structure ProviderZoneRoute where
  providerId : String
  fromZone : String
  toZone : String
  serviceType : String
  baseCharge : ℚ
  perKGRate : ℚ
  minCharge : ℚ
  deliveryHrs : ℚ
  maxMass : ℚ
  maxCBM : ℚ := 0
  maxPallets : ℕ := 0
  reliabilityScore : ℚ := 1
  fuelLevyPct : ℚ := 0
deriving DecidableEq, Repr

/-- `ProviderZoneRoute.calculateCost`: calculate cost based on weight. -/
def ProviderZoneRoute.calculateCost (r : ProviderZoneRoute) (weightKG : ℚ) : ℚ :=
  if weightKG ≤ 0 then r.minCharge
  else
    let charge := max (r.baseCharge + weightKG * r.perKGRate) r.minCharge
    charge + charge * (r.fuelLevyPct / 100)

/-- Booking/shipment with pickup and delivery details.  The `items` map and
`createdAt` timestamp of the source dataclass are unused by the engines and
omitted; the generated `uuid4` id is modelled by a plain string field. -/
structure Shipment where
  id : String := ""
  originPC : String := ""
  originSbrb : String := ""
  originState : String := ""
  destPC : String := ""
  destSbrb : String := ""
  destState : String := ""
  weightKG : ℚ := 0
  volumeCBM : ℚ := 0
  pallets : ℕ := 0
  serviceType : String := "Standard"
deriving DecidableEq, Repr

/-- Discriminant of a search-graph vertex: `'pc'` or `'pz'` in the source. -/
inductive NodeType where
  | pc
  | pz
deriving DecidableEq, Repr

/-- A search-graph vertex `(node_type, node_id, provider_id)`. -/
abbrev SearchNode := NodeType × String × Option String

/-- One entry of a `MultiHopPath.segments` list.  The source stores segments
as heterogeneous dicts; optional keys are modelled by `Option`/defaults. -/
structure Segment where
  fromZone : String
  toZone : String
  cost : ℚ
  etd : ℚ
  type : String := ""
  service : String := ""
  providerId : Option String := none
deriving DecidableEq, Repr

/-- Complete path result with multiple providers and segments.  The dataclass
`__post_init__` deduplicates `providersInvolved`; construction sites below
apply `List.dedup` accordingly. -/
structure MultiHopPath where
  id : String := ""
  shipmentId : String := ""
  nodes : List SearchNode := []
  segments : List Segment := []
  totalCost : QInf := QInf.val 0
  totalETD : QInf := QInf.val 0
  providersInvolved : List String := []
  numHops : ℕ := 0
  reliabilityScore : ℚ := 1
  totScore : ℚ := 0
  rank : ℕ := 0
deriving DecidableEq, Repr

/-! ## GraphIndex (`data_model.py`, class `GraphIndex`) -/

/-- `_buildZoneAdjacency`: `(provider_id, from_zone) → [routes]`. -/
def buildZoneAdjacency (zoneRoutes : List (String × List ProviderZoneRoute)) :
    List ((String × String) × List ProviderZoneRoute) :=
  zoneRoutes.foldl
    (fun adj pr =>
      pr.2.foldl (fun adj route => appendAt adj (route.providerId, route.fromZone) route) adj)
    []

/-- `_buildReverseZoneAdjacency`: `(provider_id, to_zone) → [incoming routes]`. -/
def buildReverseZoneAdjacency (zoneRoutes : List (String × List ProviderZoneRoute)) :
    List ((String × String) × List ProviderZoneRoute) :=
  zoneRoutes.foldl
    (fun adj pr =>
      pr.2.foldl (fun adj route => appendAt adj (route.providerId, route.toZone) route) adj)
    []

/-- `_buildPCtoZoneMap`: `postcode → [(provider_id, zone_code)]`. -/
def buildPCtoZoneMap (providerZones : List (String × List ProviderZone)) :
    List (String × List (String × String)) :=
  providerZones.foldl
    (fun m pz =>
      pz.2.foldl
        (fun m zone =>
          zone.postcodes.foldl (fun m pc => appendAt m pc (pz.1, zone.zoneCode)) m)
        m)
    []

/-- `_buildZoneToPCMap`: `(provider_id, zone_code) → [postcodes]`. -/
def buildZoneToPCMap (providerZones : List (String × List ProviderZone)) :
    List ((String × String) × List String) :=
  providerZones.foldl
    (fun m pz =>
      pz.2.foldl (fun m zone => dictSet m (pz.1, zone.zoneCode) zone.postcodes) m)
    []

/-- In-memory graph index for fast lookups: the constructed maps of
`GraphIndex.__init__`. -/
structure GraphIndex where
  postcodes : List (String × Postcode)
  providerZones : List (String × List ProviderZone)
  zoneRoutes : List (String × List ProviderZoneRoute)
  zoneAdj : List ((String × String) × List ProviderZoneRoute)
  revZoneAdj : List ((String × String) × List ProviderZoneRoute)
  pcToZones : List (String × List (String × String))
  zoneToPCs : List ((String × String) × List String)

/-- `GraphIndex.__init__`: build the postcode dict (a Python dict
comprehension, so duplicate codes keep the last entry) and the four derived
lookup structures. -/
def GraphIndex.build (postcodes : List Postcode)
    (providerZones : List (String × List ProviderZone))
    (zoneRoutes : List (String × List ProviderZoneRoute)) : GraphIndex :=
  { postcodes := postcodes.foldl (fun d pc => dictSet d pc.code pc) []
    providerZones := providerZones
    zoneRoutes := zoneRoutes
    zoneAdj := buildZoneAdjacency zoneRoutes
    revZoneAdj := buildReverseZoneAdjacency zoneRoutes
    pcToZones := buildPCtoZoneMap providerZones
    zoneToPCs := buildZoneToPCMap providerZones }

/-- `get_OutgoingRoutes`: zone-to-zone routes leaving a zone. -/
def GraphIndex.get_OutgoingRoutes (idx : GraphIndex) (providerId fromZone : String) :
    List ProviderZoneRoute :=
  (dictGet? idx.zoneAdj (providerId, fromZone)).getD []

/-- `get_IncomingRoutes`: routes arriving at a zone. -/
def GraphIndex.get_IncomingRoutes (idx : GraphIndex) (providerId toZone : String) :
    List ProviderZoneRoute :=
  (dictGet? idx.revZoneAdj (providerId, toZone)).getD []

/-- `get_ZonesForPostcode`: `(provider_id, zone_code)` pairs for a postcode. -/
def GraphIndex.get_ZonesForPostcode (idx : GraphIndex) (postcode : String) :
    List (String × String) :=
  (dictGet? idx.pcToZones postcode).getD []

/-- `get_PostcodesForZone`: postcodes in a zone. -/
def GraphIndex.get_PostcodesForZone (idx : GraphIndex) (providerId zoneCode : String) :
    List String :=
  (dictGet? idx.zoneToPCs (providerId, zoneCode)).getD []

/-- Zone lookups keyed by the node's optional provider: a `None` provider can
never match the string-keyed adjacency dicts of the source, so it yields the
empty default. -/
def GraphIndex.get_OutgoingRoutesO (idx : GraphIndex) :
    Option String → String → List ProviderZoneRoute
  | some p, z => idx.get_OutgoingRoutes p z
  | none, _ => []

/-- `get_IncomingRoutes` keyed by the node's optional provider (see above). -/
def GraphIndex.get_IncomingRoutesO (idx : GraphIndex) :
    Option String → String → List ProviderZoneRoute
  | some p, z => idx.get_IncomingRoutes p z
  | none, _ => []

/-- `get_PostcodesForZone` keyed by the node's optional provider (see above). -/
def GraphIndex.get_PostcodesForZoneO (idx : GraphIndex) :
    Option String → String → List String
  | some p, z => idx.get_PostcodesForZone p z
  | none, _ => []

/-! ## Priority queue (`heapq` of `(f_cost, counter, node)` triples)

The heap's internal array layout is irrelevant: `heappop` always removes the
lexicographically least `(f, counter)` entry, and counters are unique, so the
queue is modelled as a plain list with a pop-minimum operation. -/

/-- One priority-queue entry `(f_cost, counter, node)`. -/
abbrev PQEntry := ℚ × ℕ × SearchNode

/-- Lexicographic `<=` on the `(f, counter)` part of an entry. -/
def pqLe (a b : ℚ × ℕ) : Bool :=
  decide (a.1 < b.1) || (decide (a.1 = b.1) && decide (a.2 ≤ b.2))

/-- `heapq.heappop`: remove and return the least entry, or `none` if empty. -/
def pqPopMin : List PQEntry → Option (PQEntry × List PQEntry)
  | [] => none
  | e :: rest =>
    match pqPopMin rest with
    | none => some (e, [])
    | some (m, others) =>
      if pqLe (e.1, e.2.1) (m.1, m.2.1) then some (e, rest) else some (m, e :: others)

/-! ## Bidirectional A* engine (`engine.py`, class `BidirectionalAStarEngine`) -/

namespace Engine

/-- The `route_info` dict attached to an edge: `{'type': 'entry'}`,
`{'type': 'exit'}`, or `{'type': 'zone_route', 'service': s, 'route': r}`. -/
inductive RouteInfo where
  | entry
  | exit
  | zoneRoute (service : String) (route : ProviderZoneRoute)
deriving DecidableEq, Repr

/-- `route_info.get('type', '')`. -/
def RouteInfo.typeStr : RouteInfo → String
  | .entry => "entry"
  | .exit => "exit"
  | .zoneRoute _ _ => "zone_route"

/-- `route_info.get('service', '')`. -/
def RouteInfo.serviceStr : RouteInfo → String
  | .zoneRoute s _ => s
  | _ => ""

/-- `route_info['route']` when the key is present. -/
def RouteInfo.route? : RouteInfo → Option ProviderZoneRoute
  | .zoneRoute _ r => some r
  | _ => none

/-- One `edge_data[node]` record: `{'cost': .., 'etd': .., 'route': ..}`. -/
structure EdgeData where
  cost : ℚ
  etd : ℚ
  route : RouteInfo
deriving DecidableEq, Repr

/-- `_heuristic_node`: heuristic from any node to the goal postcode, built
from the abstracted postcode-to-postcode heuristic `hfun` (see file header). -/
def heuristicNode (idx : GraphIndex) (hfun : String → String → ℚ)
    (node : SearchNode) (goalPC : String) : ℚ :=
  match node with
  | (NodeType.pc, nodeId, _) => hfun nodeId goalPC
  | (NodeType.pz, nodeId, providerId) =>
    match idx.get_PostcodesForZoneO providerId nodeId with
    | pc :: _ => hfun pc goalPC
    | [] => 0

/-- `_get_neighbors`: outgoing (or, backward, incoming) edges of a vertex.
The `maxHops` argument is accepted but never read, exactly as in the source. -/
def getNeighbors (idx : GraphIndex) (node : SearchNode) (shipment : Shipment)
    (maxHops : ℕ) (forward : Bool) : List (SearchNode × ℚ × ℚ × RouteInfo) :=
  match node with
  | (NodeType.pc, nodeId, _) =>
    (idx.get_ZonesForPostcode nodeId).map
      (fun pz => ((NodeType.pz, pz.2, some pz.1), 0, 0,
        if forward then RouteInfo.entry else RouteInfo.exit))
  | (NodeType.pz, nodeId, providerId) =>
    let zoneNbrs :=
      if forward then
        (idx.get_OutgoingRoutesO providerId nodeId).map
          (fun route => ((NodeType.pz, route.toZone, providerId),
            route.calculateCost shipment.weightKG, route.deliveryHrs,
            RouteInfo.zoneRoute route.serviceType route))
      else
        (idx.get_IncomingRoutesO providerId nodeId).map
          (fun route => ((NodeType.pz, route.fromZone, providerId),
            route.calculateCost shipment.weightKG, route.deliveryHrs,
            RouteInfo.zoneRoute route.serviceType route))
    let pcNbrs :=
      (idx.get_PostcodesForZoneO providerId nodeId).map
        (fun pc => ((NodeType.pc, pc, (none : Option String)), (0 : ℚ), (0 : ℚ),
          if forward then RouteInfo.exit else RouteInfo.entry))
    zoneNbrs ++ pcNbrs

/-- The mutable locals of one `_astar_search` call. -/
structure AStarState where
  counter : ℕ
  openSet : List PQEntry
  gScore : List (SearchNode × ℚ)
  fScore : List (SearchNode × ℚ)
  cameFrom : List (SearchNode × SearchNode)
  edgeData : List (SearchNode × EdgeData)
  visited : List SearchNode

/-- The dict returned by `_astar_search`:
`{'parent': came_from, 'cost': g_score, 'edge': edge_data}`. -/
structure AStarResult where
  parent : List (SearchNode × SearchNode)
  cost : List (SearchNode × ℚ)
  edge : List (SearchNode × EdgeData)

/-- The body of the `for neighbor, ... in neighbors:` relaxation loop. -/
def relaxNeighbor (idx : GraphIndex) (hfun : String → String → ℚ)
    (goalPC : String) (maxCost maxETD : QInf)
    (current : SearchNode) (currentG : ℚ)
    (st : AStarState) (nbr : SearchNode × ℚ × ℚ × RouteInfo) : AStarState :=
  let neighbor := nbr.1
  let edgeCost := nbr.2.1
  let edgeEtd := nbr.2.2.1
  let routeInfo := nbr.2.2.2
  let neighborG := currentG + edgeCost
  let neighborH := heuristicNode idx hfun neighbor goalPC
  let neighborF := neighborG + neighborH
  let skipSubopt :=
    match dictGet? st.gScore neighbor with
    | some g => decide (neighborG ≥ g)
    | none => false
  if skipSubopt then st
  else if QInf.blt maxCost (QInf.val neighborG) || QInf.blt maxETD (QInf.val edgeEtd) then st
  else
    { st with
      cameFrom := dictSet st.cameFrom neighbor current
      gScore := dictSet st.gScore neighbor neighborG
      fScore := dictSet st.fScore neighbor neighborF
      edgeData := dictSet st.edgeData neighbor ⟨edgeCost, edgeEtd, routeInfo⟩
      openSet := st.openSet ++ [(neighborF, st.counter, neighbor)]
      counter := st.counter + 1 }

/-- The `while open_set:` loop of `_astar_search`, with explicit fuel. -/
def astarLoop (idx : GraphIndex) (hfun : String → String → ℚ)
    (shipment : Shipment) (goalPC : String) (forward : Bool)
    (maxCost maxETD : QInf) (maxHops : ℕ) : ℕ → AStarState → AStarState
  | 0, st => st
  | Nat.succ fuel, st =>
    match pqPopMin st.openSet with
    | none => st
    | some (entry, rest) =>
      let current := entry.2.2
      let st1 := { st with openSet := rest }
      if current ∈ st1.visited then
        astarLoop idx hfun shipment goalPC forward maxCost maxETD maxHops fuel st1
      else
        let st2 := { st1 with visited := current :: st1.visited }
        let currentG := (dictGet? st2.gScore current).getD 0
        if QInf.blt maxCost (QInf.val currentG) then
          astarLoop idx hfun shipment goalPC forward maxCost maxETD maxHops fuel st2
        else
          let neighbors := getNeighbors idx current shipment maxHops forward
          let st3 := neighbors.foldl
            (relaxNeighbor idx hfun goalPC maxCost maxETD current currentG) st2
          astarLoop idx hfun shipment goalPC forward maxCost maxETD maxHops fuel st3

/-- `_astar_search`: single-direction A* search. -/
def astarSearch (idx : GraphIndex) (hfun : String → String → ℚ) (fuel : ℕ)
    (shipment : Shipment) (startPC goalPC : String) (forward : Bool)
    (maxCost maxETD : QInf) (maxHops : ℕ) : AStarResult :=
  let startNode : SearchNode := (NodeType.pc, startPC, none)
  let startH := hfun startPC goalPC
  let st0 : AStarState :=
    { counter := 1
      openSet := [(startH, 0, startNode)]
      gScore := [(startNode, 0)]
      fScore := [(startNode, startH)]
      cameFrom := []
      edgeData := []
      visited := [] }
  let stF := astarLoop idx hfun shipment goalPC forward maxCost maxETD maxHops fuel st0
  { parent := stF.cameFrom, cost := stF.gScore, edge := stF.edgeData }

/-- The `while curr is not None:` walk of `_unroll_path`, with fuel.  A node's
`came_from` and `edge_data` entries are written together, so the `none`
fallback for `fromZone` mirrors the source's `'START'` default. -/
def unrollGo (cameFrom : List (SearchNode × SearchNode))
    (edgeData : List (SearchNode × EdgeData)) :
    ℕ → Option SearchNode → List SearchNode × List Segment × ℚ × ℚ
  | 0, _ => ([], [], 0, 0)
  | _, none => ([], [], 0, 0)
  | Nat.succ fuel, some curr =>
    let next := dictGet? cameFrom curr
    let rest := unrollGo cameFrom edgeData fuel next
    match dictGet? edgeData curr with
    | some data =>
      let fromZone :=
        match next with
        | some p => p.2.1
        | none => "START"
      let seg : Segment :=
        { fromZone := fromZone
          toZone := curr.2.1
          cost := data.cost
          etd := data.etd
          type := data.route.typeStr
          service := data.route.serviceStr
          providerId := data.route.route?.map (fun r => r.providerId) }
      (curr :: rest.1, seg :: rest.2.1, rest.2.2.1 + data.cost, rest.2.2.2 + data.etd)
    | none => (curr :: rest.1, rest.2.1, rest.2.2.1, rest.2.2.2)

/-- `_unroll_path`: backtrack from `end_node` to the start.  A parent chain
without cycles visits at most one node per `came_from` binding, so
`cameFrom.length + 1` steps of fuel reproduce the source's unbounded walk. -/
def unrollPath (endNode : SearchNode) (cameFrom : List (SearchNode × SearchNode))
    (edgeData : List (SearchNode × EdgeData)) :
    List SearchNode × List Segment × ℚ × ℚ :=
  unrollGo cameFrom edgeData (cameFrom.length + 1) (some endNode)

/-- `create_default_path`: fallback path if bidirectional search fails. -/
def create_default_path (shipment : Shipment) : MultiHopPath :=
  { shipmentId := shipment.id
    totalCost := QInf.inf
    totalETD := QInf.inf
    nodes := [(NodeType.pc, shipment.originPC, none), (NodeType.pc, shipment.destPC, none)]
    numHops := 0 }

/-- `_merge_paths`: join forward and backward explorations at every common
Postcode vertex.  The source iterates a Python set intersection whose order is
unspecified; the embedding iterates the forward map's insertion order. -/
def mergePaths (shipment : Shipment) (forward backward : AStarResult) :
    List MultiHopPath :=
  let fwdVisited := forward.cost
  let bwdVisited := backward.cost
  let commonNodes :=
    (fwdVisited.map Prod.fst).filter (fun n => (dictGet? bwdVisited n).isSome)
  let paths := commonNodes.filterMap (fun meetNode =>
    if meetNode.1 = NodeType.pc then
      let f := unrollPath meetNode forward.parent forward.edge
      let fNodes := f.1.reverse
      let fSegs := f.2.1.reverse
      let b := unrollPath meetNode backward.parent backward.edge
      let fullNodes := fNodes ++ b.1.tail
      let fullSegs := fSegs ++ b.2.1
      let totalCost := f.2.2.1 + b.2.2.1
      let totalEtd := f.2.2.2 + b.2.2.2
      let providers := (fullSegs.filterMap (fun sg => sg.providerId)).dedup
      some { shipmentId := shipment.id
             totalCost := QInf.val totalCost
             totalETD := QInf.val totalEtd
             nodes := fullNodes
             segments := fullSegs
             providersInvolved := providers
             numHops := providers.length }
    else none)
  if paths = [] then [create_default_path shipment] else paths

/-- Ascending-cost comparison used by `all_paths.sort(key=lambda p: p.totalCost)`. -/
def pathCostLe (a b : MultiHopPath) : Bool := QInf.ble a.totalCost b.totalCost

/-- `find_mltihop_path`: validate the endpoints, run both explorations, merge,
sort ascending by cost, return top K.  Unknown postcodes raise `ValueError`,
modelled as `Except.error`. -/
def find_mltihop_path (idx : GraphIndex) (postcodes : List (String × Postcode))
    (hfun : String → String → ℚ) (fuel : ℕ) (shipment : Shipment)
    (maxCost maxETD : QInf) (maxHops topK : ℕ) :
    Except String (List MultiHopPath) :=
  if (dictGet? postcodes shipment.originPC).isSome = false then
    Except.error ("Origin postcode: " ++ shipment.originPC ++ " not found")
  else if (dictGet? postcodes shipment.destPC).isSome = false then
    Except.error ("Destination postcode: " ++ shipment.destPC ++ " not found")
  else
    let forward := astarSearch idx hfun fuel shipment shipment.originPC shipment.destPC
      true maxCost maxETD maxHops
    let backward := astarSearch idx hfun fuel shipment shipment.destPC shipment.originPC
      false maxCost maxETD maxHops
    let allPaths := mergePaths shipment forward backward
    let sorted := allPaths.mergeSort pathCostLe
    Except.ok (sorted.take topK)

end Engine

namespace Engine

/-- `RouteOptimizer.unoptimized` (engine.py): return the trivial fallback path
without validating postcodes or running any search. -/
def unoptimized (shipment : Shipment) : MultiHopPath :=
  create_default_path shipment

/-- `RouteOptimizer.optimized_for_cost` (engine.py): search bounded by
`maxETD`, `topK = 10`; defaults `maxCost = inf`, `maxHops = 5`. -/
def optimized_for_cost (idx : GraphIndex) (postcodes : List (String × Postcode))
    (hfun : String → String → ℚ) (fuel : ℕ) (shipment : Shipment)
    (maxETD : QInf) : Except String (List MultiHopPath) :=
  find_mltihop_path idx postcodes hfun fuel shipment QInf.inf maxETD 5 10

/-- Ascending-time comparison used by `paths.sort(key=lambda p: p.totalETD)`. -/
def pathEtdLe (a b : MultiHopPath) : Bool := QInf.ble a.totalETD b.totalETD

/-- `RouteOptimizer.optimized_for_time` (engine.py): search bounded by
`maxCost`, then re-sort ascending by total time. -/
def optimized_for_time (idx : GraphIndex) (postcodes : List (String × Postcode))
    (hfun : String → String → ℚ) (fuel : ℕ) (shipment : Shipment)
    (maxCost : QInf) : Except String (List MultiHopPath) :=
  (find_mltihop_path idx postcodes hfun fuel shipment maxCost QInf.inf 5 10).map
    (fun paths => paths.mergeSort pathEtdLe)

/-- The score normalizer `1.0 / (1.0 + x / d)`.  In the source's float
arithmetic an infinite total yields `1/inf = 0.0`, captured by the `inf`
branch. -/
def invScore (x : QInf) (d : ℚ) : ℚ :=
  match x with
  | QInf.inf => 0
  | QInf.val q => 1 / (1 + q / d)

/-- The scoring pass of `optimize_multi_criteria`:
`path.totScore = 0.4*costScore + 0.35*timeScore + 0.25*reliabilityScore`. -/
def scorePath (p : MultiHopPath) : MultiHopPath :=
  let costScore := invScore p.totalCost 1000
  let timeScore := invScore p.totalETD 24
  let reliabilityScore := p.reliabilityScore
  { p with totScore := 0.4 * costScore + 0.35 * timeScore + 0.25 * reliabilityScore }

/-- Descending-score comparison: `sort(key=lambda p: p.totScore, reverse=True)`
is a stable sort placing larger scores first. -/
def scoreDescLe (a b : MultiHopPath) : Bool := decide (b.totScore ≤ a.totScore)

/-- The rank pass `for i, path in enumerate(paths): path.rank = i + 1`,
parameterized by the running index. -/
def assignRanks : ℕ → List MultiHopPath → List MultiHopPath
  | _, [] => []
  | i, p :: rest => { p with rank := i + 1 } :: assignRanks (i + 1) rest

/-- `RouteOptimizer.optimize_multi_criteria` (engine.py): top-15 pool, score,
sort descending by score, assign 1-based ranks. -/
def optimize_multi_criteria (idx : GraphIndex) (postcodes : List (String × Postcode))
    (hfun : String → String → ℚ) (fuel : ℕ) (shipment : Shipment) :
    Except String (List MultiHopPath) :=
  (find_mltihop_path idx postcodes hfun fuel shipment QInf.inf QInf.inf 5 15).map
    (fun paths =>
      let scored := paths.map scorePath
      let sorted := scored.mergeSort scoreDescLe
      assignRanks 0 sorted)

end Engine

/-! ## Unidirectional A* engine (`engine_new.py`, class `FreightAStarEngine`) -/

namespace EngineNew

/-- The `info` dict of an edge: `{'type': 'entry', 'provider': p}`,
`{'type': 'transit', 'route': r}`, or `{'type': 'exit', 'provider': p}`. -/
inductive FwdInfo where
  | entry (provider : String)
  | transit (route : ProviderZoneRoute)
  | exitZone (provider : Option String)
deriving DecidableEq, Repr

/-- One `edge_data[node]` record: `{'cost': .., 'etd': .., 'info': ..}`. -/
structure FwdEdgeData where
  cost : ℚ
  etd : ℚ
  info : FwdInfo
deriving DecidableEq, Repr

/-- The mutable locals of one `find_mltihop_path` call. -/
structure FwdState where
  counter : ℕ
  openSet : List PQEntry
  cameFrom : List (SearchNode × SearchNode)
  gScore : List (SearchNode × ℚ)
  edgeData : List (SearchNode × FwdEdgeData)

/-- `_get_forward_neighbors`. -/
def getForwardNeighbors (idx : GraphIndex) (node : SearchNode)
    (shipment : Shipment) : List (SearchNode × ℚ × ℚ × FwdInfo) :=
  match node with
  | (NodeType.pc, nodeId, _) =>
    (idx.get_ZonesForPostcode nodeId).map
      (fun pz => ((NodeType.pz, pz.2, some pz.1), 0, 0, FwdInfo.entry pz.1))
  | (NodeType.pz, nodeId, providerId) =>
    let transitNbrs :=
      (idx.get_OutgoingRoutesO providerId nodeId).map
        (fun route => ((NodeType.pz, route.toZone, providerId),
          route.calculateCost shipment.weightKG, route.deliveryHrs,
          FwdInfo.transit route))
    let exitNbrs :=
      (idx.get_PostcodesForZoneO providerId nodeId).map
        (fun pc => ((NodeType.pc, pc, (none : Option String)), (0 : ℚ), (0 : ℚ),
          FwdInfo.exitZone providerId))
    transitNbrs ++ exitNbrs

/-- `_heuristic_node` of the forward engine (same shape as the bidirectional
one; the postcode-to-postcode heuristic is the abstracted `hfun`). -/
def heuristicNode (idx : GraphIndex) (hfun : String → String → ℚ)
    (node : SearchNode) (goalPC : String) : ℚ :=
  match node with
  | (NodeType.pc, nodeId, _) => hfun nodeId goalPC
  | (NodeType.pz, nodeId, providerId) =>
    match idx.get_PostcodesForZoneO providerId nodeId with
    | pc :: _ => hfun pc goalPC
    | [] => 0

/-- The body of the `for neighbor, cost, etd, info in neighbors:` loop.  Note
there is no `maxETD` test anywhere in this engine: only `maxCost` prunes. -/
def relaxNeighbor (idx : GraphIndex) (hfun : String → String → ℚ)
    (destPC : String) (maxCost : QInf) (current : SearchNode) (currentG : ℚ)
    (st : FwdState) (nbr : SearchNode × ℚ × ℚ × FwdInfo) : FwdState :=
  let neighbor := nbr.1
  let cost := nbr.2.1
  let etd := nbr.2.2.1
  let info := nbr.2.2.2
  let tentativeG := currentG + cost
  if QInf.blt maxCost (QInf.val tentativeG) then st
  else
    let known : QInf :=
      match dictGet? st.gScore neighbor with
      | some g => QInf.val g
      | none => QInf.inf
    if QInf.blt (QInf.val tentativeG) known then
      let fScore := tentativeG + heuristicNode idx hfun neighbor destPC
      { st with
        cameFrom := dictSet st.cameFrom neighbor current
        gScore := dictSet st.gScore neighbor tentativeG
        edgeData := dictSet st.edgeData neighbor ⟨cost, etd, info⟩
        counter := st.counter + 1
        openSet := st.openSet ++ [(fScore, st.counter + 1, neighbor)] }
    else st

/-- Accumulator of `_reconstruct_path`, all lists in final (start-first)
order; `providers` keeps insertion order and is deduplicated at the end,
modelling the Python `set`. -/
structure ReconAcc where
  nodes : List SearchNode
  segments : List Segment
  cost : ℚ
  etd : ℚ
  providers : List String

/-- The `while current in came_from:` walk of `_reconstruct_path`, with fuel
(`cameFrom.length + 1` suffices for any acyclic parent chain).  A node in
`came_from` always has an `edge_data` entry in source runs; a missing entry is
skipped. -/
def reconGo (cameFrom : List (SearchNode × SearchNode))
    (edgeData : List (SearchNode × FwdEdgeData)) :
    ℕ → SearchNode → ReconAcc
  | 0, current => ⟨[current], [], 0, 0, []⟩
  | Nat.succ fuel, current =>
    match dictGet? cameFrom current with
    | none => ⟨[current], [], 0, 0, []⟩
    | some prev =>
      let rest := reconGo cameFrom edgeData fuel prev
      match dictGet? edgeData current with
      | some data =>
        match data.info with
        | FwdInfo.transit route =>
          { nodes := rest.nodes ++ [current]
            segments := rest.segments ++
              [{ providerId := some route.providerId
                 fromZone := route.fromZone
                 toZone := route.toZone
                 cost := data.cost
                 etd := data.etd }]
            cost := rest.cost + data.cost
            etd := rest.etd + data.etd
            providers := rest.providers ++ [route.providerId] }
        | _ =>
          { rest with
            nodes := rest.nodes ++ [current]
            cost := rest.cost + data.cost
            etd := rest.etd + data.etd }
      | none => { rest with nodes := rest.nodes ++ [current] }

/-- `_reconstruct_path`: rebuild the found path from the parent pointers. -/
def reconstructPath (cameFrom : List (SearchNode × SearchNode))
    (edgeData : List (SearchNode × FwdEdgeData)) (current : SearchNode)
    (shipment : Shipment) : MultiHopPath :=
  let acc := reconGo cameFrom edgeData (cameFrom.length + 1) current
  { shipmentId := shipment.id
    totalCost := QInf.val acc.cost
    totalETD := QInf.val acc.etd
    nodes := acc.nodes
    segments := acc.segments
    providersInvolved := acc.providers.dedup
    numHops := acc.providers.dedup.length }

/-- `create_default_path` of the forward engine: infinite cost and time, no
nodes, no segments. -/
def create_default_path (shipment : Shipment) : MultiHopPath :=
  { shipmentId := shipment.id
    totalCost := QInf.inf
    totalETD := QInf.inf
    nodes := []
    numHops := 0 }

/-- The `while open_set:` loop of the forward engine, with fuel.  It stops at
the first goal pop (first-pop termination) and returns the list
`found_paths`. -/
def searchLoop (idx : GraphIndex) (hfun : String → String → ℚ)
    (shipment : Shipment) (maxCost : QInf) : ℕ → FwdState → List MultiHopPath
  | 0, _ => []
  | Nat.succ fuel, st =>
    match pqPopMin st.openSet with
    | none => []
    | some (entry, rest) =>
      let current := entry.2.2
      if current.1 = NodeType.pc ∧ current.2.1 = shipment.destPC then
        [reconstructPath st.cameFrom st.edgeData current shipment]
      else
        let st1 := { st with openSet := rest }
        let currentG := (dictGet? st1.gScore current).getD 0
        if QInf.blt maxCost (QInf.val currentG) then
          searchLoop idx hfun shipment maxCost fuel st1
        else
          let neighbors := getForwardNeighbors idx current shipment
          let st2 := neighbors.foldl
            (relaxNeighbor idx hfun shipment.destPC maxCost current currentG) st1
          searchLoop idx hfun shipment maxCost fuel st2

/-- `find_mltihop_path` of the forward engine.  The parameters `maxETD`,
`maxHops` and `topK` are accepted but never read, exactly as in the source. -/
def find_mltihop_path (idx : GraphIndex) (postcodes : List (String × Postcode))
    (hfun : String → String → ℚ) (fuel : ℕ) (shipment : Shipment)
    (maxCost maxETD : QInf) (maxHops topK : ℕ) :
    Except String (List MultiHopPath) :=
  if (dictGet? postcodes shipment.originPC).isSome = false then
    Except.error ("Origin postcode: " ++ shipment.originPC ++ " not found")
  else if (dictGet? postcodes shipment.destPC).isSome = false then
    Except.error ("Destination postcode: " ++ shipment.destPC ++ " not found")
  else
    let startNode : SearchNode := (NodeType.pc, shipment.originPC, none)
    let hStart := hfun shipment.originPC shipment.destPC
    let st0 : FwdState :=
      { counter := 0
        openSet := [(hStart, 0, startNode)]
        cameFrom := []
        gScore := [(startNode, 0)]
        edgeData := [] }
    let foundPaths := searchLoop idx hfun shipment maxCost fuel st0
    if foundPaths = [] then Except.ok [create_default_path shipment]
    else Except.ok foundPaths

/-- `RouteOptimizer.unoptimized` (engine_new.py): the fallback path, no
postcode validation, no search. -/
def unoptimized (shipment : Shipment) : MultiHopPath :=
  create_default_path shipment

/-- `RouteOptimizer.optimized_for_cost` (engine_new.py). -/
def optimized_for_cost (idx : GraphIndex) (postcodes : List (String × Postcode))
    (hfun : String → String → ℚ) (fuel : ℕ) (shipment : Shipment)
    (maxETD : QInf) : Except String (List MultiHopPath) :=
  find_mltihop_path idx postcodes hfun fuel shipment QInf.inf maxETD 5 10

/-- `RouteOptimizer.optimized_for_time` (engine_new.py). -/
def optimized_for_time (idx : GraphIndex) (postcodes : List (String × Postcode))
    (hfun : String → String → ℚ) (fuel : ℕ) (shipment : Shipment)
    (maxCost : QInf) : Except String (List MultiHopPath) :=
  find_mltihop_path idx postcodes hfun fuel shipment maxCost QInf.inf 5 10

/-- `RouteOptimizer.optimize_multi_criteria` (engine_new.py): merely forwards
to the search with all defaults — no scoring, no re-sorting, no ranks. -/
def optimize_multi_criteria (idx : GraphIndex) (postcodes : List (String × Postcode))
    (hfun : String → String → ℚ) (fuel : ℕ) (shipment : Shipment) :
    Except String (List MultiHopPath) :=
  find_mltihop_path idx postcodes hfun fuel shipment QInf.inf QInf.inf 5 10

end EngineNew

/-! ## Concrete instances

All postcodes of these instances live in one state, so the source's geographic
heuristic evaluates to exactly `0.0` on them; `hZero` is that heuristic. -/

def hZero : String → String → ℚ := fun _ _ => 0

/-- Provider A's priced route, zone `A1 → A2`: cost 10 at any positive weight,
100 delivery hours. -/
def routeA : ProviderZoneRoute :=
  { providerId := "A", fromZone := "A1", toZone := "A2", serviceType := "Std",
    baseCharge := 10, perKGRate := 0, minCharge := 0, deliveryHrs := 100, maxMass := 1000 }

/-- Provider B's priced route, zone `B1 → B2`. -/
def routeB : ProviderZoneRoute :=
  { providerId := "B", fromZone := "B1", toZone := "B2", serviceType := "Std",
    baseCharge := 10, perKGRate := 0, minCharge := 0, deliveryHrs := 100, maxMass := 1000 }

/-- Two providers whose networks share only the handoff postcode `m`:
`p ∈ A1`, `m ∈ A2 ∩ B1`, `q ∈ B2`. -/
def idxW : GraphIndex :=
  GraphIndex.build
    [⟨"p", "s", "NSW", none⟩, ⟨"m", "s", "NSW", none⟩, ⟨"q", "s", "NSW", none⟩]
    [("A", [⟨"A", "A1", ["p"], "NSW", ""⟩, ⟨"A", "A2", ["m"], "NSW", ""⟩]),
     ("B", [⟨"B", "B1", ["m"], "NSW", ""⟩, ⟨"B", "B2", ["q"], "NSW", ""⟩])]
    [("A", [routeA]), ("B", [routeB])]

/-- A 5 kg shipment from `p` to `q` in the two-provider world. -/
def shipW : Shipment := { originPC := "p", destPC := "q", weightKG := 5 }

/-- A 0 kg shipment from `p` to `q` in the two-provider world. -/
def shipW0 : Shipment := { originPC := "p", destPC := "q", weightKG := 0 }

/-- A world with two known postcodes and no provider zones at all, so no
route can exist. -/
def idxE : GraphIndex :=
  GraphIndex.build [⟨"p", "s", "NSW", none⟩, ⟨"q", "s", "NSW", none⟩] [] []

/-- A shipment between the two known postcodes of the empty world. -/
def shipE : Shipment := { originPC := "p", destPC := "q", weightKG := 1 }

/-- A shipment whose origin postcode `zz` is unknown to both worlds. -/
def shipU : Shipment := { originPC := "zz", destPC := "q", weightKG := 1 }

/-! ## C1 — cost formula of `calculateCost` -/

/-- The cost function as the claim words it: the fuel levy is applied to the
result in either branch, including the `weightKG <= 0` one. -/
def claimedCalculateCost (r : ProviderZoneRoute) (w : ℚ) : ℚ :=
  let cost :=
    if 0 < w then max (r.baseCharge + w * r.perKGRate) r.minCharge else r.minCharge
  cost + cost * (r.fuelLevyPct / 100)

/-- The route of the claim's concrete scenario, with a 10% fuel levy. -/
def routeC1 : ProviderZoneRoute :=
  { providerId := "A", fromZone := "X", toZone := "Y", serviceType := "Std",
    baseCharge := 15, perKGRate := 1/2, minCharge := 2, deliveryHrs := 24,
    maxMass := 1000, fuelLevyPct := 10 }

/-- C1, counterexample: at `weightKG = 0` the source returns `minCharge = 2`
with no fuel levy, while the claimed formula adds the levy and yields `2.2`. -/
theorem claimC1_counterexample :
    ProviderZoneRoute.calculateCost routeC1 0 = 2 ∧
    claimedCalculateCost routeC1 0 = 11/5 ∧
    ProviderZoneRoute.calculateCost routeC1 0 ≠ claimedCalculateCost routeC1 0 := by
  refine ⟨by norm_num [ProviderZoneRoute.calculateCost, routeC1], ?_, ?_⟩ <;>
    norm_num [ProviderZoneRoute.calculateCost, claimedCalculateCost, routeC1]

/-- C1, amended: for `weightKG > 0` the edge cost is
`max(baseCharge + weightKG*perKGRate, minCharge)` increased by the fuel levy;
for `weightKG <= 0` it is `minCharge` exactly, with no levy.  In particular a
route with `baseCharge=15, perKGRate=0.5, minCharge=2` at `weightKG=100`
costs `65` plus the fuel levy. -/
theorem claimC1_amended :
    (∀ (r : ProviderZoneRoute) (w : ℚ), 0 < w →
      r.calculateCost w =
        max (r.baseCharge + w * r.perKGRate) r.minCharge
          + max (r.baseCharge + w * r.perKGRate) r.minCharge * (r.fuelLevyPct / 100)) ∧
    (∀ (r : ProviderZoneRoute) (w : ℚ), w ≤ 0 → r.calculateCost w = r.minCharge) ∧
    (∀ r : ProviderZoneRoute, r.baseCharge = 15 → r.perKGRate = 1/2 → r.minCharge = 2 →
      r.calculateCost 100 = 65 + 65 * (r.fuelLevyPct / 100)) := by
  refine ⟨fun r w hw => ?_, fun r w hw => ?_, fun r h1 h2 h3 => ?_⟩
  · rw [ProviderZoneRoute.calculateCost, if_neg (by linarith)]
  · rw [ProviderZoneRoute.calculateCost, if_pos hw]
  · rw [ProviderZoneRoute.calculateCost, if_neg (by norm_num), h1, h2, h3]
    norm_num

/-- C1, witness: the amended theorem applied to the scenario route at
`weightKG = 100` (fuel levy 10% gives `71.5`). -/
theorem claimC1_witness :
    routeC1.baseCharge = 15 ∧
    routeC1.calculateCost 100 = 65 + 65 * (routeC1.fuelLevyPct / 100) :=
  ⟨rfl, claimC1_amended.2.2 routeC1 rfl rfl rfl⟩

/-! ## C7 — zero-weight shipments pay exactly `minCharge` per route -/

/-- C7: a route's cost at weight 0 is its `minCharge` exactly, and every
transit edge either engine generates for a zero-weight shipment carries
exactly the route's `minCharge` (no fuel levy or other adjustment). -/
theorem claimC7 :
    (∀ r : ProviderZoneRoute, r.calculateCost 0 = r.minCharge) ∧
    (∀ (idx : GraphIndex) (s : Shipment) (mh : ℕ) (fwd : Bool) (node n : SearchNode)
      (c e : ℚ) (sv : String) (route : ProviderZoneRoute), s.weightKG = 0 →
      (n, c, e, Engine.RouteInfo.zoneRoute sv route) ∈ Engine.getNeighbors idx node s mh fwd →
      c = route.minCharge) ∧
    (∀ (idx : GraphIndex) (s : Shipment) (node n : SearchNode) (c e : ℚ)
      (route : ProviderZoneRoute), s.weightKG = 0 →
      (n, c, e, EngineNew.FwdInfo.transit route) ∈ EngineNew.getForwardNeighbors idx node s →
      c = route.minCharge) := by
  have hzero : ∀ r : ProviderZoneRoute, r.calculateCost 0 = r.minCharge := by
    intro r
    rw [ProviderZoneRoute.calculateCost, if_pos le_rfl]
  refine ⟨hzero, ?_, ?_⟩
  · intro idx s mh fwd node n c e sv route hw hmem
    obtain ⟨t, id, pid⟩ := node
    cases t with
    | pc =>
      rw [Engine.getNeighbors, List.mem_map] at hmem
      obtain ⟨pz, -, heq⟩ := hmem
      cases fwd <;> simp at heq
    | pz =>
      rw [Engine.getNeighbors, List.mem_append] at hmem
      rcases hmem with hmem | hmem
      · cases fwd <;>
          · simp only [Bool.false_eq_true, if_true, if_false, List.mem_map] at hmem
            obtain ⟨route', -, heq⟩ := hmem
            simp only [Prod.mk.injEq, Engine.RouteInfo.zoneRoute.injEq] at heq
            obtain ⟨-, hc, -, -, hr⟩ := heq
            subst hr
            rw [← hc, hw, hzero]
      · rw [List.mem_map] at hmem
        obtain ⟨pc, -, heq⟩ := hmem
        cases fwd <;> simp at heq
  · intro idx s node n c e route hw hmem
    obtain ⟨t, id, pid⟩ := node
    cases t with
    | pc =>
      rw [EngineNew.getForwardNeighbors, List.mem_map] at hmem
      obtain ⟨pz, -, heq⟩ := hmem
      simp at heq
    | pz =>
      rw [EngineNew.getForwardNeighbors, List.mem_append] at hmem
      rcases hmem with hmem | hmem
      · rw [List.mem_map] at hmem
        obtain ⟨route', -, heq⟩ := hmem
        simp only [Prod.mk.injEq, EngineNew.FwdInfo.transit.injEq] at heq
        obtain ⟨-, hc, -, hr⟩ := heq
        subst hr
        rw [← hc, hw, hzero]
      · rw [List.mem_map] at hmem
        obtain ⟨pc, -, heq⟩ := hmem
        simp at heq

/-- C7, witness: in the two-provider world, the transit edge out of zone `A1`
for the 0 kg shipment costs exactly `routeA.minCharge`. -/
theorem claimC7_witness : (0 : ℚ) = routeA.minCharge :=
  claimC7.2.1 idxW shipW0 5 true (NodeType.pz, "A1", some "A")
    (NodeType.pz, "A2", some "A") 0 100 "Std" routeA rfl (by decide)

/-! ## C2 — unknown-location failure of the RouteOptimizer entry points -/

/-- Unknown origin or destination postcode makes `find_mltihop_path` of the
bidirectional engine fail, for every fuel value — the guard runs before any
search work. -/
theorem engineFindUnknownError (idx : GraphIndex) (pcs : List (String × Postcode))
    (hfun : String → String → ℚ) (fuel : ℕ) (s : Shipment) (mc me : QInf)
    (mh tk : ℕ) (h : dictGet? pcs s.originPC = none ∨ dictGet? pcs s.destPC = none) :
    ∃ m, Engine.find_mltihop_path idx pcs hfun fuel s mc me mh tk = Except.error m := by
  unfold Engine.find_mltihop_path
  by_cases ho : (dictGet? pcs s.originPC).isSome = false
  · exact ⟨_, by rw [if_pos ho]⟩
  · have hd : dictGet? pcs s.destPC = none := by
      rcases h with h | h
      · exact absurd (by rw [h]; rfl) ho
      · exact h
    refine ⟨"Destination postcode: " ++ s.destPC ++ " not found", ?_⟩
    rw [if_neg ho, if_pos (by rw [hd]; rfl)]

/-- C2, counterexample: `unoptimized` performs no postcode validation at all.
For the shipment whose origin `zz` is absent from the empty world's index it
does not fail; it returns the fallback path (in both engines). -/
theorem claimC2_counterexample :
    dictGet? idxE.postcodes shipU.originPC = none ∧
    Engine.unoptimized shipU = Engine.create_default_path shipU ∧
    (Engine.unoptimized shipU).totalCost = QInf.inf ∧
    EngineNew.unoptimized shipU = EngineNew.create_default_path shipU :=
  ⟨rfl, rfl, rfl, rfl⟩

/-- C2, amended: the three search-backed entry points (`optimizedForCost`,
`optimizedForTime`, `optimizeMultiCriteria`) fail with an unknown-location
error when the origin or destination postcode is absent, and they do so for
every fuel value (even zero), i.e. before any search work; `unoptimized`,
however, performs no check and returns the fallback path unconditionally. -/
theorem claimC2_amended :
    (∀ (idx : GraphIndex) (pcs : List (String × Postcode)) (hfun : String → String → ℚ)
      (fuel : ℕ) (s : Shipment) (me mc : QInf),
      (dictGet? pcs s.originPC = none ∨ dictGet? pcs s.destPC = none) →
      (∃ m, Engine.optimized_for_cost idx pcs hfun fuel s me = Except.error m) ∧
      (∃ m, Engine.optimized_for_time idx pcs hfun fuel s mc = Except.error m) ∧
      (∃ m, Engine.optimize_multi_criteria idx pcs hfun fuel s = Except.error m)) ∧
    (∀ s : Shipment, Engine.unoptimized s = Engine.create_default_path s) := by
  refine ⟨fun idx pcs hfun fuel s me mc h => ⟨?_, ?_, ?_⟩, fun s => rfl⟩
  · exact engineFindUnknownError idx pcs hfun fuel s QInf.inf me 5 10 h
  · obtain ⟨m, hm⟩ := engineFindUnknownError idx pcs hfun fuel s mc QInf.inf 5 10 h
    exact ⟨m, by rw [Engine.optimized_for_time, hm]; rfl⟩
  · obtain ⟨m, hm⟩ := engineFindUnknownError idx pcs hfun fuel s QInf.inf QInf.inf 5 15 h
    exact ⟨m, by rw [Engine.optimize_multi_criteria, hm]; rfl⟩

/-- C2, witness: in the empty world, the three search-backed entry points all
fail on the unknown-origin shipment with zero fuel. -/
theorem claimC2_witness :
    (∃ m, Engine.optimized_for_cost idxE idxE.postcodes hZero 0 shipU QInf.inf
      = Except.error m) ∧
    (∃ m, Engine.optimized_for_time idxE idxE.postcodes hZero 0 shipU QInf.inf
      = Except.error m) ∧
    (∃ m, Engine.optimize_multi_criteria idxE idxE.postcodes hZero 0 shipU
      = Except.error m) :=
  claimC2_amended.1 idxE idxE.postcodes hZero 0 shipU QInf.inf QInf.inf (Or.inl rfl)

/-! ## C8 — `maxHops` is a no-op in both engines -/

/-- `_get_neighbors` never reads its `maxHops` argument. -/
theorem getNeighbors_maxHops (idx : GraphIndex) (s : Shipment) (fwd : Bool)
    (node : SearchNode) (h1 h2 : ℕ) :
    Engine.getNeighbors idx node s h1 fwd = Engine.getNeighbors idx node s h2 fwd := rfl

/-- The bidirectional search loop is unaffected by `maxHops`. -/
theorem astarLoop_maxHops (idx : GraphIndex) (hfun : String → String → ℚ)
    (s : Shipment) (goal : String) (fwd : Bool) (mc me : QInf) (h1 h2 : ℕ) :
    ∀ (fuel : ℕ) (st : Engine.AStarState),
      Engine.astarLoop idx hfun s goal fwd mc me h1 fuel st =
      Engine.astarLoop idx hfun s goal fwd mc me h2 fuel st := by
  intro fuel
  induction fuel with
  | zero => intro st; rfl
  | succ n ih =>
    intro st
    rw [Engine.astarLoop, Engine.astarLoop]
    cases hpop : pqPopMin st.openSet with
    | none => rfl
    | some x =>
      obtain ⟨entry, rest⟩ := x
      simp only
      split
      · exact ih _
      · split
        · exact ih _
        · exact ih _

/-- `_astar_search` is unaffected by `maxHops`. -/
theorem astarSearch_maxHops (idx : GraphIndex) (hfun : String → String → ℚ)
    (fuel : ℕ) (s : Shipment) (startPC goalPC : String) (fwd : Bool)
    (mc me : QInf) (h1 h2 : ℕ) :
    Engine.astarSearch idx hfun fuel s startPC goalPC fwd mc me h1 =
    Engine.astarSearch idx hfun fuel s startPC goalPC fwd mc me h2 := by
  unfold Engine.astarSearch
  simp only [astarLoop_maxHops idx hfun s goalPC fwd mc me h1 h2 fuel]

/-- C8: `maxHops` is accepted but never read during expansion, so both
engines return identical results for any two `maxHops` values, whatever the
shipment and the other thresholds. -/
theorem claimC8 :
    (∀ (idx : GraphIndex) (pcs : List (String × Postcode))
      (hfun : String → String → ℚ) (fuel : ℕ) (s : Shipment) (mc me : QInf)
      (tk h1 h2 : ℕ),
      Engine.find_mltihop_path idx pcs hfun fuel s mc me h1 tk =
      Engine.find_mltihop_path idx pcs hfun fuel s mc me h2 tk) ∧
    (∀ (idx : GraphIndex) (pcs : List (String × Postcode))
      (hfun : String → String → ℚ) (fuel : ℕ) (s : Shipment) (mc me : QInf)
      (tk h1 h2 : ℕ),
      EngineNew.find_mltihop_path idx pcs hfun fuel s mc me h1 tk =
      EngineNew.find_mltihop_path idx pcs hfun fuel s mc me h2 tk) := by
  constructor
  · intro idx pcs hfun fuel s mc me tk h1 h2
    unfold Engine.find_mltihop_path
    rw [astarSearch_maxHops idx hfun fuel s s.originPC s.destPC true mc me h1 h2,
        astarSearch_maxHops idx hfun fuel s s.destPC s.originPC false mc me h1 h2]
  · intro idx pcs hfun fuel s mc me tk h1 h2
    rfl

/-! ## C9 — duplicate-keyed input entities in `GraphIndex` construction -/

/-- Lookup after the postcode dict comprehension `{pc.code: pc for pc in postcodes}`:
the last postcode with a given code wins. -/
theorem dictGet_foldl_postcodes (ps : List Postcode) (d : List (String × Postcode))
    (c : String) :
    dictGet? (ps.foldl (fun d pc => dictSet d pc.code pc) d) c =
      ps.foldl (fun acc pc => if pc.code = c then some pc else acc) (dictGet? d c) := by
  induction ps generalizing d with
  | nil => rfl
  | cons p rest ih =>
    simp only [List.foldl_cons]
    rw [ih, dictGet_dictSet]

/-- Lookup after `appendAt`: the stored list grows at the written key. -/
theorem getD_appendAt {α β : Type} [DecidableEq α]
    (d : List (α × List β)) (k : α) (v : β) (c : α) :
    (dictGet? (appendAt d k v) c).getD [] =
      if k = c then (dictGet? d c).getD [] ++ [v] else (dictGet? d c).getD [] := by
  unfold appendAt
  by_cases hkc : k = c
  · subst hkc
    cases h : dictGet? d k with
    | none => simp [dictGet_dictSet, h]
    | some l => simp [dictGet_dictSet, h]
  · cases h : dictGet? d k with
    | none => simp [dictGet_dictSet, hkc]
    | some l => simp [dictGet_dictSet, hkc]

/-- One provider group of `_buildZoneAdjacency`: routes accumulate in order,
duplicates included. -/
theorem zoneAdj_fold (rl : List ProviderZoneRoute)
    (adj : List ((String × String) × List ProviderZoneRoute)) (p z : String) :
    (dictGet? (rl.foldl
        (fun adj route => appendAt adj (route.providerId, route.fromZone) route) adj)
      (p, z)).getD [] =
      (dictGet? adj (p, z)).getD []
        ++ rl.filter (fun r => decide (r.providerId = p ∧ r.fromZone = z)) := by
  induction rl generalizing adj with
  | nil => simp
  | cons r rest ih =>
    simp only [List.foldl_cons, List.filter_cons]
    rw [ih, getD_appendAt]
    by_cases h : r.providerId = p ∧ r.fromZone = z
    · have hk : (r.providerId, r.fromZone) = (p, z) := by
        rw [Prod.mk.injEq]; exact h
      rw [if_pos hk, if_pos (by simpa using h), List.append_assoc]
      rfl
    · have hk : (r.providerId, r.fromZone) ≠ (p, z) := by
        simp only [ne_eq, Prod.mk.injEq]; exact h
      rw [if_neg hk, if_neg (by simpa using h)]

/-- All of `_buildZoneAdjacency`: the adjacency list at `(p, z)` is exactly
the input routes with that provider and from-zone, in order, duplicates
included. -/
theorem zoneAdj_build (zrs : List (String × List ProviderZoneRoute))
    (adj : List ((String × String) × List ProviderZoneRoute)) (p z : String) :
    (dictGet? (zrs.foldl
        (fun adj pr => pr.2.foldl
          (fun adj route => appendAt adj (route.providerId, route.fromZone) route) adj)
        adj) (p, z)).getD [] =
      (dictGet? adj (p, z)).getD []
        ++ ((zrs.map Prod.snd).join).filter
          (fun r => decide (r.providerId = p ∧ r.fromZone = z)) := by
  induction zrs generalizing adj with
  | nil => simp
  | cons g rest ih =>
    simp only [List.foldl_cons]
    rw [ih, zoneAdj_fold]
    simp [List.filter_append, List.append_assoc]

/-- A world with duplicate-keyed entities: two zones both keyed `(A, Z)` and
two routes both keyed `(A, X, Y)`. -/
def routeD1 : ProviderZoneRoute :=
  { providerId := "A", fromZone := "X", toZone := "Y", serviceType := "S1",
    baseCharge := 1, perKGRate := 0, minCharge := 0, deliveryHrs := 1, maxMass := 1 }

/-- The later duplicate of `routeD1`'s key, with a different service/charge. -/
def routeD2 : ProviderZoneRoute :=
  { providerId := "A", fromZone := "X", toZone := "Y", serviceType := "S2",
    baseCharge := 2, perKGRate := 0, minCharge := 0, deliveryHrs := 1, maxMass := 1 }

/-- Index built from the duplicate-keyed input. -/
def idxDup : GraphIndex :=
  GraphIndex.build [⟨"c", "s", "NSW", none⟩]
    [("A", [⟨"A", "Z", ["c"], "NSW", ""⟩, ⟨"A", "Z", ["c", "d"], "NSW", ""⟩])]
    [("A", [routeD1, routeD2])]

/-- C9, counterexample: two routes with the same `(providerId, fromZone,
toZone)` key are both retained in the outgoing-adjacency lookup — the earlier
one is still served, so the later entity does not overwrite the earlier one in
every lookup structure. -/
theorem claimC9_counterexample :
    idxDup.get_OutgoingRoutes "A" "X" = [routeD1, routeD2] ∧
    routeD1 ∈ idxDup.get_OutgoingRoutes "A" "X" ∧
    routeD1 ≠ routeD2 := by
  refine ⟨by decide, by decide, by decide⟩

/-- C9, amended: construction is total and never rejects duplicates, and the
two dict-write structures are last-write-wins — lookup in the postcode map
yields the last postcode with the queried code, and the zone→postcodes map
keeps the last zone's postcode list.  But the two append-accumulating
structures retain every duplicate: the outgoing adjacency at `(p, z)` is
exactly the filtered input route sequence (duplicates included), and a
duplicate-keyed zone contributes a second `(provider, zone)` entry to its
postcodes' zone lists. -/
theorem claimC9_amended :
    (∀ (ps : List Postcode) (pzs : List (String × List ProviderZone))
      (zrs : List (String × List ProviderZoneRoute)) (c : String),
      dictGet? (GraphIndex.build ps pzs zrs).postcodes c =
        ps.foldl (fun acc p => if p.code = c then some p else acc) none) ∧
    (∀ (ps : List Postcode) (pzs : List (String × List ProviderZone))
      (zrs : List (String × List ProviderZoneRoute)) (p z : String),
      (GraphIndex.build ps pzs zrs).get_OutgoingRoutes p z =
        ((zrs.map Prod.snd).join).filter
          (fun r => decide (r.providerId = p ∧ r.fromZone = z))) ∧
    idxDup.get_PostcodesForZone "A" "Z" = ["c", "d"] ∧
    idxDup.get_ZonesForPostcode "c" = [("A", "Z"), ("A", "Z")] := by
  refine ⟨fun ps pzs zrs c => ?_, fun ps pzs zrs p z => ?_, by decide, by decide⟩
  · show dictGet? (ps.foldl (fun d pc => dictSet d pc.code pc) []) c = _
    rw [dictGet_foldl_postcodes]
    rfl
  · show (dictGet? (buildZoneAdjacency zrs) (p, z)).getD [] = _
    rw [buildZoneAdjacency, zoneAdj_build]
    rfl

/-! ## C5 — `optimizedForCost` is ascending in cost and truncated to top-10 -/

/-- Extract the underlying list equation from a successful
`find_mltihop_path` run of the bidirectional engine. -/
theorem engineFindOkEq (idx : GraphIndex) (pcs : List (String × Postcode))
    (hfun : String → String → ℚ) (fuel : ℕ) (s : Shipment) (mc me : QInf)
    (mh tk : ℕ) (l : List MultiHopPath)
    (h : Engine.find_mltihop_path idx pcs hfun fuel s mc me mh tk = Except.ok l) :
    l = ((Engine.mergePaths s
        (Engine.astarSearch idx hfun fuel s s.originPC s.destPC true mc me mh)
        (Engine.astarSearch idx hfun fuel s s.destPC s.originPC false mc me mh)).mergeSort
      Engine.pathCostLe).take tk := by
  rw [Engine.find_mltihop_path] at h
  by_cases ho : (dictGet? pcs s.originPC).isSome = false
  · rw [if_pos ho] at h
    exact absurd h (by simp)
  · rw [if_neg ho] at h
    by_cases hd : (dictGet? pcs s.destPC).isSome = false
    · rw [if_pos hd] at h
      exact absurd h (by simp)
    · rw [if_neg hd] at h
      simp only [Except.ok.injEq] at h
      exact h.symm

/-- C5: for every shipment whose endpoints are known (i.e. the call
succeeds), `optimizedForCost` of the bidirectional optimizer returns a list
that is non-decreasing in `totalCost`, has at most `K = 10` elements, and
draws every element from the merged candidate set. -/
theorem claimC5 :
    ∀ (idx : GraphIndex) (pcs : List (String × Postcode))
      (hfun : String → String → ℚ) (fuel : ℕ) (s : Shipment) (me : QInf)
      (l : List MultiHopPath),
      Engine.optimized_for_cost idx pcs hfun fuel s me = Except.ok l →
      l.Pairwise (fun a b => QInf.ble a.totalCost b.totalCost = true) ∧
      l.length ≤ 10 ∧
      ∀ p ∈ l, p ∈ Engine.mergePaths s
        (Engine.astarSearch idx hfun fuel s s.originPC s.destPC true QInf.inf me 5)
        (Engine.astarSearch idx hfun fuel s s.destPC s.originPC false QInf.inf me 5) := by
  intro idx pcs hfun fuel s me l h
  rw [Engine.optimized_for_cost] at h
  have hl := engineFindOkEq idx pcs hfun fuel s QInf.inf me 5 10 l h
  subst hl
  refine ⟨?_, ?_, ?_⟩
  · have htrans : ∀ a b c : MultiHopPath, Engine.pathCostLe a b = true →
        Engine.pathCostLe b c = true → Engine.pathCostLe a c = true :=
      fun a b c hab hbc => QInf.ble_trans hab hbc
    have htotal : ∀ a b : MultiHopPath,
        (Engine.pathCostLe a b || Engine.pathCostLe b a) = true :=
      fun a b => QInf.ble_total a.totalCost b.totalCost
    have hs : (List.mergeSort (Engine.mergePaths s
          (Engine.astarSearch idx hfun fuel s s.originPC s.destPC true QInf.inf me 5)
          (Engine.astarSearch idx hfun fuel s s.destPC s.originPC false QInf.inf me 5))
          Engine.pathCostLe).Pairwise
        (fun a b => Engine.pathCostLe a b = true) :=
      List.sorted_mergeSort htrans htotal _
    exact (List.Pairwise.sublist (List.take_sublist _ _) hs).imp (fun hab => hab)
  · exact List.length_take_le _ _
  · intro p hp
    have := List.take_subset _ _ hp
    exact List.mem_mergeSort.mp this

/-- C5, witness: the concrete result list of `optimizedForCost` in the
two-provider world. -/
def c5list : List MultiHopPath :=
  (Engine.optimized_for_cost idxW idxW.postcodes hZero 40 shipW QInf.inf).toOption.getD []

/-- C5, witness: `claimC5` applied to the two-provider world. -/
theorem claimC5_witness :
    c5list.Pairwise (fun a b => QInf.ble a.totalCost b.totalCost = true) ∧
    c5list.length ≤ 10 ∧
    ∀ p ∈ c5list, p ∈ Engine.mergePaths shipW
      (Engine.astarSearch idxW hZero 40 shipW shipW.originPC shipW.destPC true
        QInf.inf QInf.inf 5)
      (Engine.astarSearch idxW hZero 40 shipW shipW.destPC shipW.originPC false
        QInf.inf QInf.inf 5) :=
  claimC5 idxW idxW.postcodes hZero 40 shipW QInf.inf c5list rfl

/-! ## C6 — `optimizeMultiCriteria` scoring, ordering and ranks -/

/-- Membership in `assignRanks` only changes the `rank` field. -/
theorem mem_assignRanks {b : MultiHopPath} :
    ∀ (n : ℕ) (l : List MultiHopPath), b ∈ Engine.assignRanks n l →
      ∃ a ∈ l, b.totScore = a.totScore ∧ b.totalCost = a.totalCost ∧
        b.totalETD = a.totalETD ∧ b.reliabilityScore = a.reliabilityScore := by
  intro n l
  induction l generalizing n with
  | nil => intro h; exact absurd h (List.not_mem_nil _)
  | cons p rest ih =>
    intro h
    rw [Engine.assignRanks] at h
    rcases List.mem_cons.mp h with h | h
    · exact ⟨p, List.mem_cons_self _ _, by rw [h], by rw [h], by rw [h], by rw [h]⟩
    · obtain ⟨a, ha, hs⟩ := ih (n + 1) h
      exact ⟨a, List.mem_cons_of_mem _ ha, hs⟩

/-- `assignRanks` preserves the list length. -/
theorem assignRanks_length : ∀ (n : ℕ) (l : List MultiHopPath),
    (Engine.assignRanks n l).length = l.length := by
  intro n l
  induction l generalizing n with
  | nil => rfl
  | cons p rest ih => rw [Engine.assignRanks]; simp [ih]

/-- The ranks written by `assignRanks n l` are exactly `n+1, ..., n+length`. -/
theorem assignRanks_map_rank : ∀ (n : ℕ) (l : List MultiHopPath),
    (Engine.assignRanks n l).map (fun p => p.rank) = List.range' (n + 1) l.length := by
  intro n l
  induction l generalizing n with
  | nil => rfl
  | cons p rest ih =>
    rw [Engine.assignRanks]
    simp only [List.map_cons, List.length_cons, List.range'_succ]
    exact congrArg (List.cons _) (ih (n + 1))

/-- `assignRanks` preserves descending-score ordering. -/
theorem assignRanks_pairwise_score :
    ∀ (n : ℕ) (l : List MultiHopPath),
      l.Pairwise (fun a b => b.totScore ≤ a.totScore) →
      (Engine.assignRanks n l).Pairwise (fun a b => b.totScore ≤ a.totScore) := by
  intro n l
  induction l generalizing n with
  | nil => intro h; exact List.Pairwise.nil
  | cons p rest ih =>
    intro h
    rcases List.pairwise_cons.mp h with ⟨hp, hrest⟩
    rw [Engine.assignRanks]
    refine List.pairwise_cons.mpr ⟨?_, ih (n + 1) hrest⟩
    intro b hb
    obtain ⟨a, ha, hsc, -⟩ := mem_assignRanks (n + 1) rest hb
    rw [hsc]
    exact hp a ha

/-- `scorePath` writes exactly the weighted score of its own fields. -/
theorem scorePath_totScore (q : MultiHopPath) :
    (Engine.scorePath q).totScore =
      0.4 * Engine.invScore (Engine.scorePath q).totalCost 1000
        + 0.35 * Engine.invScore (Engine.scorePath q).totalETD 24
        + 0.25 * (Engine.scorePath q).reliabilityScore := rfl

/-- C6, amended: the claim holds of the bidirectional optimizer
(`RouteOptimizer` of `engine.py`): a top-15 pool, the weighted score, a
descending-score order and dense 1-based ranks.  The other optimizer of the
repository (`RouteOptimizer` of `engine_new.py`, the one the presentation
layer instantiates) merely forwards the raw search result with no scoring and
no ranks — see the counterexample. -/
theorem claimC6_amended :
    ∀ (idx : GraphIndex) (pcs : List (String × Postcode))
      (hfun : String → String → ℚ) (fuel : ℕ) (s : Shipment)
      (l : List MultiHopPath),
      Engine.optimize_multi_criteria idx pcs hfun fuel s = Except.ok l →
      l.Pairwise (fun a b => b.totScore ≤ a.totScore) ∧
      l.map (fun p => p.rank) = List.range' 1 l.length ∧
      l.length ≤ 15 ∧
      ∀ p ∈ l, p.totScore =
        0.4 * Engine.invScore p.totalCost 1000 + 0.35 * Engine.invScore p.totalETD 24
          + 0.25 * p.reliabilityScore := by
  intro idx pcs hfun fuel s l h
  rw [Engine.optimize_multi_criteria] at h
  cases hf : Engine.find_mltihop_path idx pcs hfun fuel s QInf.inf QInf.inf 5 15 with
  | error m => rw [hf] at h; exact absurd h (by simp [Except.map])
  | ok paths =>
    rw [hf] at h
    simp only [Except.map, Except.ok.injEq] at h
    have hpaths := engineFindOkEq idx pcs hfun fuel s QInf.inf QInf.inf 5 15 paths hf
    have hlen15 : paths.length ≤ 15 := by
      rw [hpaths]; exact List.length_take_le _ _
    subst h
    have htrans : ∀ a b c : MultiHopPath, Engine.scoreDescLe a b = true →
        Engine.scoreDescLe b c = true → Engine.scoreDescLe a c = true := by
      intro a b c hab hbc
      have h1 := of_decide_eq_true hab
      have h2 := of_decide_eq_true hbc
      exact decide_eq_true (le_trans h2 h1)
    have htotal : ∀ a b : MultiHopPath,
        (Engine.scoreDescLe a b || Engine.scoreDescLe b a) = true := by
      intro a b
      rcases le_total a.totScore b.totScore with h | h
      · exact Bool.or_eq_true_iff.mpr (Or.inr (decide_eq_true h))
      · exact Bool.or_eq_true_iff.mpr (Or.inl (decide_eq_true h))
    have hsorted : ((paths.map Engine.scorePath).mergeSort Engine.scoreDescLe).Pairwise
        (fun a b => b.totScore ≤ a.totScore) := by
      have := List.sorted_mergeSort htrans htotal (paths.map Engine.scorePath)
      exact this.imp (fun hab => of_decide_eq_true hab)
    refine ⟨assignRanks_pairwise_score 0 _ hsorted, ?_, ?_, ?_⟩
    · rw [assignRanks_map_rank, assignRanks_length]
    · rw [assignRanks_length]
      simpa using hlen15
    · intro p hp
      obtain ⟨a, ha, hsc, hc, he, hr⟩ := mem_assignRanks 0 _ hp
      have ha' : a ∈ paths.map Engine.scorePath := List.mem_mergeSort.mp ha
      obtain ⟨q, -, hq⟩ := List.mem_map.mp ha'
      rw [hsc, hc, he, hr, ← hq, scorePath_totScore]

set_option maxRecDepth 100000 in
/-- C6, counterexample: in the two-provider world the engine_new optimizer's
`optimize_multi_criteria` returns one path whose rank is `0` (not the dense
1-based rank the claim requires) and whose score was never assigned. -/
theorem claimC6_counterexample :
    ((EngineNew.optimize_multi_criteria idxW idxW.postcodes hZero 40 shipW).toOption.getD
      []).map (fun p => (p.rank, p.totScore)) = [(0, 0)] := by
  with_unfolding_all decide

/-- C6, witness: the concrete result list of the bidirectional
`optimizeMultiCriteria` in the two-provider world. -/
def c6list : List MultiHopPath :=
  (Engine.optimize_multi_criteria idxW idxW.postcodes hZero 40 shipW).toOption.getD []

/-- C6, witness: `claimC6_amended` applied to the two-provider world. -/
theorem claimC6_witness :
    c6list.Pairwise (fun a b => b.totScore ≤ a.totScore) ∧
    c6list.map (fun p => p.rank) = List.range' 1 c6list.length ∧
    c6list.length ≤ 15 ∧
    ∀ p ∈ c6list, p.totScore =
      0.4 * Engine.invScore p.totalCost 1000 + 0.35 * Engine.invScore p.totalETD 24
        + 0.25 * p.reliabilityScore :=
  claimC6_amended idxW idxW.postcodes hZero 40 shipW c6list rfl

/-! ## C3 — non-empty return and the infinite-cost fallback path -/

/-- A key of an association list always has a successful lookup. -/
theorem mem_keys_isSome {α β : Type} [DecidableEq α] {d : List (α × β)} {k : α}
    (h : k ∈ d.map Prod.fst) : (dictGet? d k).isSome = true := by
  induction d with
  | nil => simp at h
  | cons e rest ih =>
    obtain ⟨k', v⟩ := e
    rw [List.map_cons, List.mem_cons] at h
    rw [dictGet?]
    by_cases hek : k' = k
    · rw [if_pos hek]; rfl
    · rcases h with h | h
      · exact absurd h.symm hek
      · rw [if_neg hek]; exact ih h

/-- `_merge_paths` always returns a non-empty list. -/
theorem mergePaths_ne_nil (s : Shipment) (fwd bwd : Engine.AStarResult) :
    Engine.mergePaths s fwd bwd ≠ [] := by
  unfold Engine.mergePaths
  dsimp only
  split
  · simp
  · assumption

/-- When no Postcode vertex is settled by both explorations, `_merge_paths`
returns exactly the fallback path. -/
theorem mergePaths_fallback (s : Shipment) (fwd bwd : Engine.AStarResult)
    (hno : ∀ n : SearchNode, n.1 = NodeType.pc →
      (dictGet? fwd.cost n).isSome = true →
      (dictGet? bwd.cost n).isSome = true → False) :
    Engine.mergePaths s fwd bwd = [Engine.create_default_path s] := by
  unfold Engine.mergePaths
  dsimp only
  have hnil : ∀ L, L = [] → (if L = [] then [Engine.create_default_path s] else L)
      = [Engine.create_default_path s] := by
    intro L hL
    rw [if_pos hL]
  apply hnil
  rw [List.filterMap_eq_nil_iff]
  intro n hn
  rw [List.mem_filter] at hn
  obtain ⟨hkey, hbwd⟩ := hn
  have hfwd : (dictGet? fwd.cost n).isSome = true := mem_keys_isSome hkey
  have hnpc : ¬ n.1 = NodeType.pc := fun hpc => hno n hpc hfwd (by simpa using hbwd)
  rw [if_neg hnpc]

/-- A non-empty list truncated to a positive length stays non-empty. -/
theorem take_pos_ne_nil {α : Type} {l : List α} {k : ℕ} (hl : l ≠ []) (hk : 1 ≤ k) :
    l.take k ≠ [] := by
  cases l with
  | nil => exact absurd rfl hl
  | cons a rest =>
    cases k with
    | zero => exact absurd hk (by norm_num)
    | succ j => simp

/-- C3: with known endpoints both engines always return a non-empty list
(`topK >= 1` for the bidirectional engine, whose result is truncated to
`topK`; all call sites use 10 or 15), and when the search finds nothing —
no common settled Postcode vertex (bidirectional), an exhausted queue
(unidirectional) — the result is exactly one fallback path with infinite
`totalCost` and `totalETD` and no segments, with no error raised. -/
theorem claimC3 :
    (∀ (idx : GraphIndex) (pcs : List (String × Postcode))
      (hfun : String → String → ℚ) (fuel : ℕ) (s : Shipment) (mc me : QInf)
      (mh tk : ℕ) (l : List MultiHopPath),
      1 ≤ tk →
      Engine.find_mltihop_path idx pcs hfun fuel s mc me mh tk = Except.ok l →
      l ≠ [] ∧
      ((∀ n : SearchNode, n.1 = NodeType.pc →
          (dictGet? (Engine.astarSearch idx hfun fuel s s.originPC s.destPC true
            mc me mh).cost n).isSome = true →
          (dictGet? (Engine.astarSearch idx hfun fuel s s.destPC s.originPC false
            mc me mh).cost n).isSome = true → False) →
        l = [Engine.create_default_path s]) ∧
      (Engine.create_default_path s).totalCost = QInf.inf ∧
      (Engine.create_default_path s).totalETD = QInf.inf ∧
      (Engine.create_default_path s).segments = []) ∧
    (∀ (idx : GraphIndex) (pcs : List (String × Postcode))
      (hfun : String → String → ℚ) (fuel : ℕ) (s : Shipment) (mc me : QInf)
      (mh tk : ℕ) (l : List MultiHopPath),
      EngineNew.find_mltihop_path idx pcs hfun fuel s mc me mh tk = Except.ok l →
      l ≠ [] ∧
      (EngineNew.searchLoop idx hfun s mc fuel
          { counter := 0
            openSet := [(hfun s.originPC s.destPC, 0, (NodeType.pc, s.originPC, none))]
            cameFrom := []
            gScore := [((NodeType.pc, s.originPC, none), 0)]
            edgeData := [] } = [] →
        l = [EngineNew.create_default_path s]) ∧
      (EngineNew.create_default_path s).totalCost = QInf.inf ∧
      (EngineNew.create_default_path s).totalETD = QInf.inf ∧
      (EngineNew.create_default_path s).segments = []) := by
  constructor
  · intro idx pcs hfun fuel s mc me mh tk l htk h
    have hl := engineFindOkEq idx pcs hfun fuel s mc me mh tk l h
    subst hl
    refine ⟨?_, ?_, rfl, rfl, rfl⟩
    · apply take_pos_ne_nil _ htk
      intro hnil
      exact mergePaths_ne_nil s _ _
        (List.Perm.eq_nil (hnil ▸ (List.mergeSort_perm _ Engine.pathCostLe).symm))
    · intro hno
      rw [mergePaths_fallback s _ _ hno, List.mergeSort_singleton]
      cases tk with
      | zero => exact absurd htk (by norm_num)
      | succ j => simp
  · intro idx pcs hfun fuel s mc me mh tk l h
    rw [EngineNew.find_mltihop_path] at h
    by_cases ho : (dictGet? pcs s.originPC).isSome = false
    · rw [if_pos ho] at h
      exact absurd h (by simp)
    · rw [if_neg ho] at h
      by_cases hd : (dictGet? pcs s.destPC).isSome = false
      · rw [if_pos hd] at h
        exact absurd h (by simp)
      · rw [if_neg hd] at h
        dsimp only at h
        split at h
        · simp only [Except.ok.injEq] at h
          subst h
          exact ⟨by simp, fun _ => rfl, rfl, rfl, rfl⟩
        · simp only [Except.ok.injEq] at h
          subst h
          refine ⟨by assumption, fun hc => absurd hc (by assumption), rfl, rfl, rfl⟩

/-- C3, witness: the concrete result in the zone-less world, where no route
can exist. -/
def c3list : List MultiHopPath :=
  (Engine.find_mltihop_path idxE idxE.postcodes hZero 10 shipE QInf.inf QInf.inf
    5 10).toOption.getD []

/-- C3, witness: `claimC3` applied to the zone-less world. -/
theorem claimC3_witness :
    c3list ≠ [] ∧
    ((∀ n : SearchNode, n.1 = NodeType.pc →
        (dictGet? (Engine.astarSearch idxE hZero 10 shipE shipE.originPC shipE.destPC true
          QInf.inf QInf.inf 5).cost n).isSome = true →
        (dictGet? (Engine.astarSearch idxE hZero 10 shipE shipE.destPC shipE.originPC false
          QInf.inf QInf.inf 5).cost n).isSome = true → False) →
      c3list = [Engine.create_default_path shipE]) ∧
    (Engine.create_default_path shipE).totalCost = QInf.inf ∧
    (Engine.create_default_path shipE).totalETD = QInf.inf ∧
    (Engine.create_default_path shipE).segments = [] :=
  claimC3.1 idxE idxE.postcodes hZero 10 shipE QInf.inf QInf.inf 5 10 c3list
    (by norm_num) rfl

/-! ## C4 — where the per-edge `maxETD` bound actually lives -/

theorem QInf.ble_of_blt_eq_false {a b : QInf} (h : QInf.blt a b = false) :
    QInf.ble b a = true := by
  simpa [QInf.blt] using h

/-- One relaxation step of the bidirectional engine's `_astar_search` keeps
every recorded edge time within `maxETD`. -/
theorem relaxNeighbor_etdOk (idx : GraphIndex) (hfun : String → String → ℚ)
    (goalPC : String) (mc me : QInf) (current : SearchNode) (currentG : ℚ)
    (st : Engine.AStarState) (nbr : SearchNode × ℚ × ℚ × Engine.RouteInfo)
    (h : ∀ e ∈ st.edgeData, QInf.ble (QInf.val e.2.etd) me = true) :
    ∀ e ∈ (Engine.relaxNeighbor idx hfun goalPC mc me current currentG st nbr).edgeData,
      QInf.ble (QInf.val e.2.etd) me = true := by
  intro e he
  rw [Engine.relaxNeighbor] at he
  split at he
  · exact h e he
  · split at he
    · exact h e he
    · next hguard =>
      rcases mem_dictSet he with hv | hold
      · have hg : (QInf.blt mc (QInf.val (currentG + nbr.2.1))
            || QInf.blt me (QInf.val nbr.2.2.1)) = false :=
          Bool.eq_false_iff.mpr hguard
        have hetd := (Bool.or_eq_false_iff.mp hg).2
        rw [hv]
        exact QInf.ble_of_blt_eq_false hetd
      · exact h e hold

/-- The relaxation fold keeps every recorded edge time within `maxETD`. -/
theorem foldlRelax_etdOk (idx : GraphIndex) (hfun : String → String → ℚ)
    (goalPC : String) (mc me : QInf) (current : SearchNode) (currentG : ℚ)
    (l : List (SearchNode × ℚ × ℚ × Engine.RouteInfo)) :
    ∀ st : Engine.AStarState,
      (∀ e ∈ st.edgeData, QInf.ble (QInf.val e.2.etd) me = true) →
      ∀ e ∈ (l.foldl (Engine.relaxNeighbor idx hfun goalPC mc me current currentG)
        st).edgeData, QInf.ble (QInf.val e.2.etd) me = true := by
  induction l with
  | nil => intro st h; exact h
  | cons nbr rest ih =>
    intro st h
    rw [List.foldl_cons]
    exact ih _ (relaxNeighbor_etdOk idx hfun goalPC mc me current currentG st nbr h)

/-- The whole search loop keeps every recorded edge time within `maxETD`. -/
theorem astarLoop_etdOk (idx : GraphIndex) (hfun : String → String → ℚ)
    (s : Shipment) (goalPC : String) (fwd : Bool) (mc me : QInf) (mh : ℕ) :
    ∀ (fuel : ℕ) (st : Engine.AStarState),
      (∀ e ∈ st.edgeData, QInf.ble (QInf.val e.2.etd) me = true) →
      ∀ e ∈ (Engine.astarLoop idx hfun s goalPC fwd mc me mh fuel st).edgeData,
        QInf.ble (QInf.val e.2.etd) me = true := by
  intro fuel
  induction fuel with
  | zero => intro st h; exact h
  | succ n ih =>
    intro st h
    rw [Engine.astarLoop]
    cases hpop : pqPopMin st.openSet with
    | none => exact h
    | some x =>
      obtain ⟨entry, rest⟩ := x
      dsimp only
      split
      · exact ih _ h
      · split
        · exact ih _ h
        · exact ih _ (foldlRelax_etdOk idx hfun goalPC mc me _ _ _ _ h)

/-- C4, amended: the per-edge threshold test lives in the *bidirectional*
engine's single-direction search `_astar_search`: a neighbor edge is skipped
whenever the candidate cumulative cost exceeds `maxCost` or the individual
edge's time exceeds `maxETD` (a per-edge bound), so every edge it records has
time at most `maxETD`.  The unidirectional engine (`engine_new.py`) checks
only `maxCost`; `maxETD` is accepted but never read there, and its returned
paths can contain transit segments whose edge time exceeds `maxETD` — see the
counterexample. -/
theorem claimC4_amended :
    ∀ (idx : GraphIndex) (hfun : String → String → ℚ) (fuel : ℕ) (s : Shipment)
      (startPC goalPC : String) (fwd : Bool) (mc me : QInf) (mh : ℕ)
      (e : SearchNode × Engine.EdgeData),
      e ∈ (Engine.astarSearch idx hfun fuel s startPC goalPC fwd mc me mh).edge →
      QInf.ble (QInf.val e.2.etd) me = true := by
  intro idx hfun fuel s startPC goalPC fwd mc me mh e hmem
  unfold Engine.astarSearch at hmem
  dsimp only at hmem
  exact astarLoop_etdOk idx hfun s goalPC fwd mc me mh fuel _
    (fun e he => absurd he (List.not_mem_nil _)) e hmem

set_option maxRecDepth 100000 in
/-- C4, counterexample: in the two-provider world, with `maxETD = 1` the
unidirectional engine still returns the route whose two transit segments each
take `100 > 1` hours: no `maxETD` check exists anywhere in `engine_new.py`'s
expansion, so the claimed per-edge skip does not happen in the unidirectional
engine and a returned segment exceeds `maxETD`. -/
theorem claimC4_counterexample :
    ((EngineNew.find_mltihop_path idxW idxW.postcodes hZero 40 shipW QInf.inf
        (QInf.val 1) 5 10).toOption.getD []).map
      (fun p => p.segments.map (fun sg => sg.etd)) = [[100, 100]] ∧
    QInf.blt (QInf.val 1) (QInf.val 100) = true := by
  constructor
  · with_unfolding_all decide
  · decide

set_option maxRecDepth 100000 in
/-- C4, witness: the recorded `A1 → A2` edge of the forward exploration in the
two-provider world has time `100`, within the infinite `maxETD` of that run. -/
theorem claimC4_witness : QInf.ble (QInf.val 100) QInf.inf = true :=
  claimC4_amended idxW hZero 40 shipW "p" "q" true QInf.inf QInf.inf 5
    ((NodeType.pz, "A2", some "A"), ⟨10, 100, Engine.RouteInfo.zoneRoute "Std" routeA⟩)
    (by with_unfolding_all decide)

/-! ## C10 — per-leg `maxCost` pruning but no re-check of the merged total -/

/-- One relaxation step keeps every settled cost within `maxCost`. -/
theorem relaxNeighbor_costOk (idx : GraphIndex) (hfun : String → String → ℚ)
    (goalPC : String) (mc me : QInf) (current : SearchNode) (currentG : ℚ)
    (st : Engine.AStarState) (nbr : SearchNode × ℚ × ℚ × Engine.RouteInfo)
    (h : ∀ e ∈ st.gScore, QInf.ble (QInf.val e.2) mc = true) :
    ∀ e ∈ (Engine.relaxNeighbor idx hfun goalPC mc me current currentG st nbr).gScore,
      QInf.ble (QInf.val e.2) mc = true := by
  intro e he
  rw [Engine.relaxNeighbor] at he
  split at he
  · exact h e he
  · split at he
    · exact h e he
    · next hguard =>
      rcases mem_dictSet he with hv | hold
      · have hg : (QInf.blt mc (QInf.val (currentG + nbr.2.1))
            || QInf.blt me (QInf.val nbr.2.2.1)) = false :=
          Bool.eq_false_iff.mpr hguard
        have hcost := (Bool.or_eq_false_iff.mp hg).1
        rw [hv]
        exact QInf.ble_of_blt_eq_false hcost
      · exact h e hold

/-- The relaxation fold keeps every settled cost within `maxCost`. -/
theorem foldlRelax_costOk (idx : GraphIndex) (hfun : String → String → ℚ)
    (goalPC : String) (mc me : QInf) (current : SearchNode) (currentG : ℚ)
    (l : List (SearchNode × ℚ × ℚ × Engine.RouteInfo)) :
    ∀ st : Engine.AStarState,
      (∀ e ∈ st.gScore, QInf.ble (QInf.val e.2) mc = true) →
      ∀ e ∈ (l.foldl (Engine.relaxNeighbor idx hfun goalPC mc me current currentG)
        st).gScore, QInf.ble (QInf.val e.2) mc = true := by
  induction l with
  | nil => intro st h; exact h
  | cons nbr rest ih =>
    intro st h
    rw [List.foldl_cons]
    exact ih _ (relaxNeighbor_costOk idx hfun goalPC mc me current currentG st nbr h)

/-- The whole search loop keeps every settled cost within `maxCost`. -/
theorem astarLoop_costOk (idx : GraphIndex) (hfun : String → String → ℚ)
    (s : Shipment) (goalPC : String) (fwd : Bool) (mc me : QInf) (mh : ℕ) :
    ∀ (fuel : ℕ) (st : Engine.AStarState),
      (∀ e ∈ st.gScore, QInf.ble (QInf.val e.2) mc = true) →
      ∀ e ∈ (Engine.astarLoop idx hfun s goalPC fwd mc me mh fuel st).gScore,
        QInf.ble (QInf.val e.2) mc = true := by
  intro fuel
  induction fuel with
  | zero => intro st h; exact h
  | succ n ih =>
    intro st h
    rw [Engine.astarLoop]
    cases hpop : pqPopMin st.openSet with
    | none => exact h
    | some x =>
      obtain ⟨entry, rest⟩ := x
      dsimp only
      split
      · exact ih _ h
      · split
        · exact ih _ h
        · exact ih _ (foldlRelax_costOk idx hfun goalPC mc me _ _ _ _ h)

set_option maxRecDepth 100000 in
/-- C10: with a non-negative `maxCost`, every cost settled by a single
exploration leg of the bidirectional engine is at most `maxCost`; yet the
merged total is never re-checked, and in the concrete two-provider world with
`maxCost = 10` the engine returns a non-fallback path (it has segments) whose
`totalCost = 20` exceeds `maxCost` and equals `2 * maxCost`. -/
theorem claimC10 :
    (∀ (idx : GraphIndex) (hfun : String → String → ℚ) (fuel : ℕ) (s : Shipment)
      (startPC goalPC : String) (fwd : Bool) (mc me : QInf) (mh : ℕ)
      (e : SearchNode × ℚ),
      QInf.ble (QInf.val 0) mc = true →
      e ∈ (Engine.astarSearch idx hfun fuel s startPC goalPC fwd mc me mh).cost →
      QInf.ble (QInf.val e.2) mc = true) ∧
    ((Engine.find_mltihop_path idxW idxW.postcodes hZero 40 shipW (QInf.val 10)
        QInf.inf 5 10).toOption.getD []).map
      (fun p => (p.totalCost, p.segments.isEmpty)) = [(QInf.val 20, false)] ∧
    QInf.blt (QInf.val 10) (QInf.val 20) = true ∧
    QInf.ble (QInf.val 20) (QInf.val (2 * 10)) = true := by
  refine ⟨?_, by with_unfolding_all decide, by decide, by with_unfolding_all decide⟩
  intro idx hfun fuel s startPC goalPC fwd mc me mh e h0 hmem
  unfold Engine.astarSearch at hmem
  dsimp only at hmem
  refine astarLoop_costOk idx hfun s goalPC fwd mc me mh fuel _ ?_ e hmem
  intro e' he'
  rcases List.mem_singleton.mp he' with rfl
  exact h0

set_option maxRecDepth 100000 in
/-- C10, witness: the settled cost of the start vertex in the forward leg of
the `maxCost = 10` run is within the threshold. -/
theorem claimC10_witness :
    QInf.ble (QInf.val 0) (QInf.val 10) = true ∧
    QInf.ble (QInf.val 0) (QInf.val 10) = true :=
  ⟨by decide,
   claimC10.1 idxW hZero 40 shipW "p" "q" true (QInf.val 10) QInf.inf 5
    ((NodeType.pc, "p", none), 0) (by decide) (by with_unfolding_all decide)⟩
